import Mathlib

/-!
Verification of the Feedly-for-Obsidian plugin core against its specification.

The development shallowly embeds the two TypeScript source files (the main
plugin file and its near-identical sibling `src/main.ts`).  JavaScript
strings are modelled as Lean `String` (operating on `.data : List Char`),
JavaScript `undefined`/absent values as `Option`, and the effectful sync
command as a pure function from a script of API outcomes to a final
settings record plus a trace of observable effects (network calls,
settings persists, user notices).
-/

/-! ## String primitives (JavaScript semantics) -/

/-- JavaScript `s.replace(/c/g, repl)` for a single-character pattern:
every occurrence of `c` is replaced by `repl`. -/
def jsReplaceAllChar (c : Char) (repl : List Char) : List Char → List Char
  | [] => []
  | a :: rest =>
    if a = c then repl ++ jsReplaceAllChar c repl rest
    else a :: jsReplaceAllChar c repl rest

/-- Split a character list at every occurrence of `c`, returning the first
group and the remaining groups (specification-side view of a global
single-character replacement). -/
def splitCharP (c : Char) : List Char → List Char × List (List Char)
  | [] => ([], [])
  | a :: rest =>
    let p := splitCharP c rest
    if a = c then ([], p.1 :: p.2) else (a :: p.1, p.2)

/-- Join groups with a separator: `interP sep g [g1, g2] = g ++ sep ++ g1 ++ sep ++ g2`. -/
def interP (sep : List Char) (g : List Char) : List (List Char) → List Char
  | [] => g
  | h :: t => g ++ sep ++ interP sep h t

/-- Does `hay` start with `pat`? -/
def strStartsL : List Char → List Char → Bool
  | [], _ => true
  | _ :: _, [] => false
  | p :: ps, h :: hs => p = h && strStartsL ps hs

/-- Does `hay` contain `pat` as a contiguous run? -/
def strHasL (pat : List Char) : List Char → Bool
  | [] => strStartsL pat []
  | h :: t => strStartsL pat (h :: t) || strHasL pat t

/-- JavaScript `hay.includes(needle)`. -/
def jsIncludes (hay needle : String) : Bool :=
  strHasL needle.data hay.data

/-- Truthiness of a possibly-absent JavaScript string: `undefined` and the
empty string are falsy. -/
def jsFalsyStr (o : Option String) : Bool :=
  o.getD "" = ""

/-! ## Dates (host `Date` object, viewed through the accessors the code uses) -/

/-- View of a JavaScript `Date`: `getFullYear()`, `getMonth()` (0-based),
`getDate()` (day of month).  The conversion from epoch milliseconds is a
host facility; functions needing it take a `msToDate` parameter. -/
structure DateView where
  year : Nat
  month : Nat
  day : Nat
deriving DecidableEq

/-- JavaScript `s.padStart(2, c0)` where `c0` is the zero character. -/
def padTwo (s : String) : String :=
  if s.length < 2 then ⟨List.replicate (2 - s.length) '0' ++ s.data⟩ else s

/-- Source `dateToJournal`: formats a date as `YYYY-MM-DD` (month is
`getMonth() + 1`, both month and day padded to two digits). -/
def dateToJournal (d : DateView) : String :=
  toString d.year ++ "-" ++ padTwo (toString (d.month + 1)) ++ "-" ++ padTwo (toString d.day)

/-! ## Data model: annotated entries -/

structure FeedlyHighlight where
  text : String
deriving DecidableEq

/-- The `annotation` payload of an annotated entry (highlight or comment). -/
structure FeedlyAnnot where
  highlight : Option FeedlyHighlight
  comment : Option String
deriving DecidableEq

structure FeedlyOrigin where
  title : String
deriving DecidableEq

structure FeedlyEntryInfo where
  canonicalUrl : String
  id : String
  published : Option Nat
  crawled : Nat
  author : String
  title : String
  origin : Option FeedlyOrigin
deriving DecidableEq

/-- Source `FeedlyAnnotatedEntry` (the `annotation` field is named `annot`
here). -/
structure FeedlyAnnotatedEntry where
  annot : FeedlyAnnot
  entry : FeedlyEntryInfo
  created : Nat
deriving DecidableEq

/-! ## Pure document-content functions from the source -/

/-- Source `sanitizeFrontmatter`: `v.replace(/:/g, ' - ')`. -/
def sanitizeFrontmatter (v : String) : String :=
  ⟨jsReplaceAllChar ':' " - ".data v.data⟩

/-- The character class of the source regex `/[*"\/<>:|?]/g` used on entry
titles (note: the class contains an escaped forward slash but no escaped
backslash, so it holds exactly these eight characters). -/
def titleStrippedChars : List Char := ['*', '"', '/', '<', '>', ':', '|', '?']

/-- Source `processAnnotations` file-name sanitization:
`e.entry.title.replace(/[*"\/<>:|?]/g, '')`.  Replacing every class
character by the empty string is removal, i.e. a filter. -/
def sanitizedFileName (title : String) : String :=
  ⟨title.data.filter (fun c => !(titleStrippedChars.contains c))⟩

/-- Source `getAppendContent`: a highlight becomes a blockquote whose
embedded newlines are replaced by a quoted continuation separator; absent
that, a truthy comment becomes a paragraph after a blank (whitespace) line;
otherwise the empty string. -/
def getAppendContent (e : FeedlyAnnotatedEntry) : String :=
  match e.annot.highlight with
  | some h => "\n\n> " ++ ⟨jsReplaceAllChar '\n' "\n>\n> ".data h.text.data⟩
  | none =>
    match e.annot.comment with
    | some c => if c = "" then "" else "\n    \n" ++ c
    | none => ""

/-- Source `getInitialContent`: the frontmatter written when a document is
first created for an entry.  `msToDate` models the host `new Date(ms)`. -/
def getInitialContent (msToDate : Nat → DateView) (e : FeedlyAnnotatedEntry) : String :=
  "---"
  ++ (if e.entry.canonicalUrl ≠ "" then "\nurl: " ++ e.entry.canonicalUrl else "")
  ++ "\nfeedlyUrl: https://feedly.com/i/entry/" ++ e.entry.id
  ++ "\ndate: " ++ dateToJournal (msToDate e.created)
  ++ "\npubDate: " ++ dateToJournal (msToDate (e.entry.published.getD e.entry.crawled))
  ++ "\nauthor: " ++ sanitizeFrontmatter e.entry.author
  ++ (match e.entry.origin with
      | some o => if o.title ≠ "" then "\npublisher: " ++ sanitizeFrontmatter o.title else ""
      | none => "")
  ++ "\n---\n"

/-! ## Settings / checkpoint record -/

/-- Source `FeedlySettings` (all fields optional in the source). -/
structure FeedlySettings where
  userId : Option String
  accessToken : Option String
  lastSync : Option Nat
  continuationTime : Option Nat
  continuationToken : Option String
  annotationsFolder : Option String
deriving DecidableEq

/-! ## API gateway and the annotation fetch -/

/-- Outcome of one call through `apiCall`, as seen by `getAnnotations`:
either the request resolved to a JSON document (which may carry an
embedded `errorCode`), or `requestUrl` threw and the rethrown error has a
message (for an HTTP failure the obsidian message contains `status NNN`). -/
inductive ApiOutcome
  | success (hasErrorCode : Bool) (entries : List FeedlyAnnotatedEntry)
      (continuation : Option String)
  | failure (msg : String)
deriving DecidableEq

/-- Result of the source `getAnnotations`: a page, a rethrown error
(401/429), or `undefined` (the catch block falls through for every other
error). -/
inductive AnnResult
  | page (entries : List FeedlyAnnotatedEntry) (continuation : Option String)
  | thrown (msg : String)
  | noRes
deriving DecidableEq

/-- The catch block of `getAnnotations`: rethrows a fixed message on
`status 401` (checked first) or `status 429`; any other message falls
through, making the function resolve to `undefined`. -/
def classifyCatch (m : String) : AnnResult :=
  if jsIncludes m "status 401" then AnnResult.thrown "Access token expired, request a new one"
  else if jsIncludes m "status 429" then AnnResult.thrown "API rate limit reached"
  else AnnResult.noRes

/-- Source `getAnnotations`, as a function of the API outcome.  A payload
with an `errorCode` is thrown as `new Error(a)` whose message is the
object-to-string form, then classified by the same catch block. -/
def getAnnotations (o : ApiOutcome) : AnnResult :=
  match o with
  | ApiOutcome.success true _ _ => classifyCatch "[object Object]"
  | ApiOutcome.success false es c => AnnResult.page es c
  | ApiOutcome.failure m => classifyCatch m

/-! ## The sync command as a state-and-trace function -/

/-- Observable effects of the sync command, in order of occurrence. -/
inductive Effect
  | savedSettings (s : FeedlySettings)
  | notice (msg : String)
  | networkCall
deriving DecidableEq

/-- How the `while (true)` loop of the sync command ended. -/
inductive LoopExit
  | shortPage
  | gotNone
  | errorCaught (msg : String)
  | scriptEnded
deriving DecidableEq

structure LoopResult where
  settings : FeedlySettings
  counter : Nat
  trace : List Effect
  ending : LoopExit
  remaining : List ApiOutcome
deriving DecidableEq

/-- The body of the sync command loop (source lines around
`while (true) { ... }`): fetch a page; on a thrown error show the matching
notice and stop; on `undefined` stop silently; on a page, process its
entries, and either complete (page shorter than 100: clear the token, set
`lastSync := continuationTime`, persist, notice) or persist the new
continuation token and iterate.  The `script` lists the outcome of each
successive network call; unconsumed outcomes are returned, so a run that
stops early leaves `remaining` nonempty. -/
def syncLoop (s : FeedlySettings) (counter : Nat) : List ApiOutcome → LoopResult
  | [] => ⟨s, counter, [], LoopExit.scriptEnded, []⟩
  | o :: rest =>
    match getAnnotations o with
    | AnnResult.thrown m =>
      ⟨s, counter,
        [Effect.networkCall,
         Effect.notice (if jsIncludes m "API rate limit" then
            "The Feedly API rate limit has been reached, continue later" else m)],
        LoopExit.errorCaught m, rest⟩
    | AnnResult.noRes => ⟨s, counter, [Effect.networkCall], LoopExit.gotNone, rest⟩
    | AnnResult.page entries cont =>
      if entries.length < 100 then
        let s2 := { s with continuationToken := none, lastSync := s.continuationTime }
        ⟨s2, counter + entries.length,
          [Effect.networkCall, Effect.savedSettings s2,
           Effect.notice "All Feedly annotations synced"],
          LoopExit.shortPage, rest⟩
      else
        let s2 := { s with continuationToken := cont }
        let r := syncLoop s2 (counter + entries.length) rest
        ⟨r.settings, r.counter, Effect.networkCall :: Effect.savedSettings s2 :: r.trace,
          r.ending, r.remaining⟩

/-- The fresh-sync snapshot before the loop: when no (truthy) continuation
token is stored, `continuationTime := Date.now()` is written. -/
def syncStart (s0 : FeedlySettings) (now : Nat) : FeedlySettings :=
  if jsFalsyStr s0.continuationToken then { s0 with continuationTime := some now } else s0

/-- The whole sync command callback: credential checks, the fresh-sync
snapshot-and-persist, the begin notice, the loop, and the final count
notice. -/
def syncCommand (s0 : FeedlySettings) (now : Nat) (script : List ApiOutcome) :
    FeedlySettings × List Effect :=
  if jsFalsyStr s0.userId then
    (s0, [Effect.notice "Missing Feedly user id"])
  else if jsFalsyStr s0.accessToken then
    (s0, [Effect.notice "Missing Feedly access token"])
  else
    let s1 := syncStart s0 now
    let preFx : List Effect :=
      if jsFalsyStr s0.continuationToken then [Effect.savedSettings s1] else []
    let r := syncLoop s1 0 script
    (r.settings,
      preFx ++ Effect.notice "Beginning to download Feedly annotations" :: r.trace
        ++ [Effect.notice ("Synced " ++ toString r.counter ++ " annotations")])

/-- The settings records persisted in a trace, in order. -/
def savesOf (fx : List Effect) : List FeedlySettings :=
  fx.filterMap (fun e => match e with
    | Effect.savedSettings s => some s
    | _ => none)

/-! ## API request construction (`apiCall` in each source file) -/

/-- A JSON value passed as a request body (flat model: enough structure to
distinguish a value from its serialized text). -/
inductive JsData
  | str (s : String)
  | num (n : Int)
  | items (xs : List String)
deriving DecidableEq

/-- Minimal JSON serialization of a `JsData` (string members quoted with
quote and backslash escaping). -/
def jsonQuote (s : String) : String :=
  ⟨'"' :: s.data.foldr
      (fun ch acc => if ch = '"' || ch = '\\' then '\\' :: ch :: acc else ch :: acc)
      ['"']⟩

def jsonStringify : JsData → String
  | JsData.str s => jsonQuote s
  | JsData.num n => toString n
  | JsData.items xs => ⟨'[' :: (interP [','] [] (xs.map (fun s => (jsonQuote s).data))).drop 1 ++ [']']⟩

/-- Body slot of an HTTP request: absent, a raw (unserialized) value, or
serialized JSON text. -/
inductive RequestBody
  | absent
  | rawData (d : JsData)
  | jsonText (t : String)
deriving DecidableEq

structure HttpRequest where
  url : String
  method : String
  headers : List (String × String)
  body : RequestBody
deriving DecidableEq

/-- `apiCall` of the main plugin source file: the body is
`JSON.stringify(data) ?? undefined`. -/
def apiCall (accessToken path method : String) (data : Option JsData) : HttpRequest :=
  { url := "https://cloud.feedly.com/v3/" ++ path
    method := method
    headers := [("Authorization", "Bearer " ++ accessToken), ("Accept", "application/json")]
    body := match data with
      | none => RequestBody.absent
      | some d => RequestBody.jsonText (jsonStringify d) }

/-- `apiCall` of `src/main.ts`: identical except the body is
`data ?? undefined`, i.e. the raw value with no JSON serialization. -/
def apiCallMain (accessToken path method : String) (data : Option JsData) : HttpRequest :=
  { url := "https://cloud.feedly.com/v3/" ++ path
    method := method
    headers := [("Authorization", "Bearer " ++ accessToken), ("Accept", "application/json")]
    body := match data with
      | none => RequestBody.absent
      | some d => RequestBody.rawData d }

/-! ## Export pipeline: content resolution -/

/-- A `content`/`summary` member of a stream item: `{ content: string }`. -/
structure ArticleBody where
  content : String
deriving DecidableEq

/-- A stream item as consumed by the ePub command (fields the code reads). -/
structure FeedlyArticle where
  id : String
  title : String
  author : Option String
  canonicalUrl : String
  published : Option Nat
  crawled : Nat
  origin : Option FeedlyOrigin
  content : Option ArticleBody
  summary : Option ArticleBody
  fullContent : Option String
deriving DecidableEq

/-- Source `getContent`:
`article.content?.content ?? article.summary?.content ?? article.fullContent`.
The `??` operator falls through only on `undefined`/`null`; an empty
string is kept. -/
def getContent (a : FeedlyArticle) : Option String :=
  match a.content with
  | some b => some b.content
  | none =>
    match a.summary with
    | some b => some b.content
    | none => a.fullContent

/-- Source filter building `articlesToExport`:
`articles.filter(x => getContent(x) !== undefined)`. -/
def articlesToExport (articles : List FeedlyArticle) : List FeedlyArticle :=
  articles.filter (fun x => (getContent x).isSome)

/-- The resolution the specification describes: the first non-empty of
rendered content, summary content, full content. -/
def specResolveContent (a : FeedlyArticle) : Option String :=
  ([a.content.map ArticleBody.content, a.summary.map ArticleBody.content,
    a.fullContent].filterMap id).find? (fun s => s ≠ "")

/-- The per-article section data built by the ePub command (metadata block
in a `pre` element followed, when the resolved content is truthy, by the
content in a `div`).  The `x.author ?? x.origin.title` fallback with an
absent origin is a host TypeError; it is modelled as the empty string. -/
def epubSectionData (msToDate : Nat → DateView) (x : FeedlyArticle) : String :=
  let base :=
    "<pre>---"
    ++ (if x.canonicalUrl ≠ "" then "\nurl: " ++ x.canonicalUrl else "")
    ++ "\nfeedlyUrl: https://feedly.com/i/entry/" ++ x.id
    ++ "\ntitle: " ++ x.title
    ++ "\npubDate: " ++ dateToJournal (msToDate (x.published.getD x.crawled))
    ++ "\nauthor: " ++ sanitizeFrontmatter
        (x.author.getD ((x.origin.map FeedlyOrigin.title).getD ""))
    ++ (match x.origin with
        | some o => if o.title ≠ "" then "\npublisher: " ++ sanitizeFrontmatter o.title else ""
        | none => "")
    ++ "\n---</pre>\n\n"
  match getContent x with
  | some cnt =>
    if cnt = "" then base
    else base ++ "\n                        <div>\n                        " ++ cnt
      ++ "\n                        </div>\n                    "
  | none => base

/-! ## Container assembly (`generateEpub`) -/

/-- A file produced by `bookFile.getFilesForEPUB()`: a name, the folder it
was generated under, and its bytes (abstracted to a string). -/
structure EpubFile where
  name : String
  folder : String
  content : String
deriving DecidableEq

/-- Compression option passed to `zip.file`: the mimetype is added with an
explicit `STORE`, every other file with no explicit option. -/
inductive ZipComp
  | store
  | unspecified
deriving DecidableEq

structure ZipEntry where
  path : String
  comp : ZipComp
deriving DecidableEq

/-- The folder objects created on the zip before the add loop. -/
def epubFolders : List String := ["META-INF", "OEBPF", "OEBPF/css", "OEBPF/content", "OEBPF/images"]

/-- One iteration of the add loop for a non-mimetype file: a file with a
nonempty folder is added through the matching folder object (path
`folder/name`); looking up a folder outside the created set dereferences
`undefined` and throws, modelled as `none`; a file with an empty folder is
added at path `file.folder + "/" + file.name`. -/
def addZipEntry (f : EpubFile) : Option ZipEntry :=
  if f.folder ≠ "" then
    if epubFolders.contains f.folder then
      some ⟨f.folder ++ "/" ++ f.name, ZipComp.unspecified⟩
    else none
  else some ⟨f.folder ++ "/" ++ f.name, ZipComp.unspecified⟩

/-- The add loop over the non-mimetype files, propagating the first
failure (a thrown lookup error aborts the loop). -/
def addAllZipEntries : List EpubFile → Option (List ZipEntry)
  | [] => some []
  | f :: fs =>
    match addZipEntry f, addAllZipEntries fs with
    | some e, some es => some (e :: es)
    | _, _ => none

/-- The zip-assembly portion of source `generateEpub`: the mimetype file
(if found) is written first with `STORE` compression, then every other
file in order.  The result is the ordered list of file entries written to
the container (folder-object creation adds no file entry). -/
def buildZipEntries (files : List EpubFile) : Option (List ZipEntry) :=
  let mimeEntries : List ZipEntry :=
    match files.find? (fun f => f.name = "mimetype") with
    | some f => [⟨f.name, ZipComp.store⟩]
    | none => []
  (addAllZipEntries (files.filter (fun f => f.name ≠ "mimetype"))).map
    (fun es => mimeEntries ++ es)

/-! ## Sample values used by witness theorems -/

def sampleInfo : FeedlyEntryInfo :=
  { canonicalUrl := "https://example.com/a"
    id := "id1"
    published := some 5
    crawled := 7
    author := "Ada"
    title := "T"
    origin := some ⟨"Pub"⟩ }

def sampleHighlightEntry : FeedlyAnnotatedEntry :=
  { annot := { highlight := some ⟨"line one\nline two"⟩, comment := none }
    entry := sampleInfo
    created := 3 }

def sampleCommentEntry : FeedlyAnnotatedEntry :=
  { annot := { highlight := none, comment := some "a remark" }
    entry := sampleInfo
    created := 3 }

def sampleBareEntry : FeedlyAnnotatedEntry :=
  { annot := { highlight := none, comment := none }
    entry := sampleInfo
    created := 3 }

def sampleSettings : FeedlySettings :=
  { userId := some "u1"
    accessToken := some "tok"
    lastSync := some 11
    continuationTime := some 42
    continuationToken := none
    annotationsFolder := some "Feedly Annotations" }

/-- A full page: one hundred copies of the sample entry. -/
def fullPageEntries : List FeedlyAnnotatedEntry :=
  List.replicate 100 sampleHighlightEntry

/-- An article whose rendered content is the empty string and whose
summary is nonempty: the code resolves it to the empty string. -/
def emptyRenderedArticle : FeedlyArticle :=
  { id := "x1", title := "X1", author := none, canonicalUrl := ""
    published := none, crawled := 0, origin := none
    content := some ⟨""⟩, summary := some ⟨"the summary"⟩, fullContent := none }

/-- An article all of whose content fields are empty or absent: the code
keeps it in the export. -/
def allEmptyArticle : FeedlyArticle :=
  { id := "x2", title := "X2", author := none, canonicalUrl := ""
    published := none, crawled := 0, origin := none
    content := some ⟨""⟩, summary := none, fullContent := none }

/-- An article whose title contains colons, for checking that the ePub
metadata title line is not colon-sanitized. -/
def colonArticle : FeedlyArticle :=
  { id := "x3", title := "AI: Rise of the Machines", author := some "Ada"
    published := none, crawled := 0, origin := some ⟨"Pub"⟩, canonicalUrl := ""
    content := some ⟨"body"⟩, summary := none, fullContent := none }

/-- The file set of a small generated book, for the container-assembly
witness. -/
def witnessEpubFiles : List EpubFile :=
  [⟨"mimetype", "", "application/epub+zip"⟩,
   ⟨"container.xml", "META-INF", "c"⟩,
   ⟨"ebook.opf", "OEBPF", "o"⟩,
   ⟨"ebook.css", "OEBPF/css", "s"⟩,
   ⟨"s1.xhtml", "OEBPF/content", "d"⟩,
   ⟨"cover.png", "OEBPF/images", "i"⟩]


/-- A script of `n` full pages followed by a failing fetch and arbitrary
further outcomes. -/
def errScript (pages : List (List FeedlyAnnotatedEntry × Option String)) (m : String)
    (rest : List ApiOutcome) : List ApiOutcome :=
  pages.map (fun p => ApiOutcome.success false p.1 p.2) ++ ApiOutcome.failure m :: rest

/-- The message `getAnnotations` rethrows for a failing fetch whose
message names status 401 (checked first) or 429. -/
def thrownMsgFor (m : String) : String :=
  if jsIncludes m "status 401" then "Access token expired, request a new one"
  else "API rate limit reached"

/-- The notice the loop shows for that rethrown message. -/
def errNoticeFor (m : String) : String :=
  if jsIncludes m "status 401" then "Access token expired, request a new one"
  else "The Feedly API rate limit has been reached, continue later"

/-- The completion record persisted when a run of the sample settings
reaches a short page. -/
def sampleCompletion : FeedlySettings :=
  { sampleSettings with continuationToken := none, lastSync := sampleSettings.continuationTime }

/-- An article with only a summary, for the content-resolution witness. -/
def summaryOnlyArticle : FeedlyArticle :=
  { id := "x4", title := "X4", author := none, canonicalUrl := ""
    published := none, crawled := 0, origin := none
    content := none, summary := some ⟨"only summary"⟩, fullContent := none }

/-! ## Helper lemmas on the string primitives -/

/-- Global single-character replacement equals splitting on the character
and rejoining with the replacement string. -/
theorem jsReplaceAllChar_eq_interP (c : Char) (repl : List Char) (l : List Char) :
    jsReplaceAllChar c repl l = interP repl (splitCharP c l).1 (splitCharP c l).2 := by
  induction l with
  | nil => rfl
  | cons a rest ih =>
    by_cases h : a = c
    · simp [jsReplaceAllChar, splitCharP, h, interP, ih]
    · simp only [jsReplaceAllChar, splitCharP, h, if_neg, ih]
      cases hp : (splitCharP c rest).2 with
      | nil => simp [interP, hp]
      | cons g gs => simp [interP, hp, List.cons_append]

/-- Replacing every occurrence of a character by a string that does not
contain it leaves no occurrence of the character. -/
theorem not_mem_jsReplaceAllChar (c : Char) (repl : List Char) (l : List Char)
    (hrepl : c ∉ repl) : c ∉ jsReplaceAllChar c repl l := by
  induction l with
  | nil => simp [jsReplaceAllChar]
  | cons a rest ih =>
    by_cases h : a = c
    · simp only [jsReplaceAllChar, if_pos h, List.mem_append]
      exact fun hc => hc.elim hrepl ih
    · simp only [jsReplaceAllChar, if_neg h, List.mem_cons]
      exact fun hc => hc.elim (fun he => h he.symm) ih

/-- Splitting the newline-author literal used by the frontmatter template. -/
theorem data_nl_author : "\nauthor: ".data = "\n".data ++ "author: ".data := rfl

/-- Splitting the newline-publisher literal used by the frontmatter template. -/
theorem data_nl_publisher : "\npublisher: ".data = "\n".data ++ "publisher: ".data := rfl

/-! ## Claims about the pure document functions -/

/-- Claim C3 evaluated on the code: the file-name sanitization removes the
eight characters actually present in the regex class but keeps a
backslash.  The claim (and the source comment directly above the regex,
which lists nine characters including the backslash) says the backslash is
removed; the regex class lacks an escaped backslash, so it is not. -/
theorem claim_C3 :
    sanitizedFileName "a*b\"c/d\\e<f>g:h|i?j" = "abcd\\efghij"
    ∧ sanitizedFileName "back\\slash" = "back\\slash" := by
  constructor <;> decide

/-- Claim C8: an entry with a highlight gains a blockquote whose embedded
newlines become quoted continuation lines (split on newline, rejoined with
the quoted separator); an entry with a nonempty comment and no highlight
gains the comment as a paragraph after a blank line; an entry with neither
gains nothing. -/
theorem claim_C8 (e : FeedlyAnnotatedEntry) :
    (∀ h, e.annot.highlight = some h →
      getAppendContent e = "\n\n> " ++
        ⟨interP "\n>\n> ".data (splitCharP '\n' h.text.data).1 (splitCharP '\n' h.text.data).2⟩)
    ∧ (e.annot.highlight = none → ∀ c, e.annot.comment = some c → c ≠ "" →
        getAppendContent e = "\n    \n" ++ c)
    ∧ (e.annot.highlight = none → e.annot.comment = none → getAppendContent e = "") := by
  refine ⟨?_, ?_, ?_⟩
  · intro h hh
    simp only [getAppendContent, hh]
    rw [← jsReplaceAllChar_eq_interP]
  · intro hh c hc hne
    simp [getAppendContent, hh, hc, hne]
  · intro hh hc
    simp [getAppendContent, hh, hc]

/-- Claim C8 witness: the three branches at concrete entries. -/
theorem claim_C8_witness :
    getAppendContent sampleHighlightEntry = "\n\n> " ++
      ⟨interP "\n>\n> ".data (splitCharP '\n' ("line one\nline two" : String).data).1
        (splitCharP '\n' ("line one\nline two" : String).data).2⟩
    ∧ getAppendContent sampleCommentEntry = "\n    \n" ++ "a remark"
    ∧ getAppendContent sampleBareEntry = "" :=
  ⟨(claim_C8 sampleHighlightEntry).1 ⟨"line one\nline two"⟩ rfl,
   (claim_C8 sampleCommentEntry).2.1 rfl "a remark" rfl (by decide),
   (claim_C8 sampleBareEntry).2.2 rfl rfl⟩

/-- Claim C10: the frontmatter author and publisher values pass through
`sanitizeFrontmatter`, whose output never contains a colon; the title line
of the ePub metadata block is written raw, as the colon surviving in a
concrete title shows. -/
theorem claim_C10 :
    (∀ v : String, ':' ∉ (sanitizeFrontmatter v).data)
    ∧ (∀ (msToDate : Nat → DateView) (e : FeedlyAnnotatedEntry),
        ∃ pre post : String,
          getInitialContent msToDate e =
            pre ++ "author: " ++ sanitizeFrontmatter e.entry.author ++ post)
    ∧ (∀ (msToDate : Nat → DateView) (e : FeedlyAnnotatedEntry) (o : FeedlyOrigin),
        e.entry.origin = some o → o.title ≠ "" →
          ∃ pre post : String,
            getInitialContent msToDate e =
              pre ++ "publisher: " ++ sanitizeFrontmatter o.title ++ post)
    ∧ jsIncludes (epubSectionData (fun _ => ⟨2024, 0, 1⟩) colonArticle)
        "title: AI: Rise of the Machines" = true := by
  refine ⟨?_, ?_, ?_, by decide⟩
  · intro v
    exact not_mem_jsReplaceAllChar ':' _ _ (by decide)
  · intro f e
    refine ⟨"---"
      ++ (if e.entry.canonicalUrl ≠ "" then "\nurl: " ++ e.entry.canonicalUrl else "")
      ++ "\nfeedlyUrl: https://feedly.com/i/entry/" ++ e.entry.id
      ++ "\ndate: " ++ dateToJournal (f e.created)
      ++ "\npubDate: " ++ dateToJournal (f (e.entry.published.getD e.entry.crawled))
      ++ "\n",
      (match e.entry.origin with
        | some o => if o.title ≠ "" then "\npublisher: " ++ sanitizeFrontmatter o.title else ""
        | none => "") ++ "\n---\n", ?_⟩
    apply String.ext
    simp [getInitialContent, String.data_append, data_nl_author, List.append_assoc]
  · intro f e o ho hne
    refine ⟨"---"
      ++ (if e.entry.canonicalUrl ≠ "" then "\nurl: " ++ e.entry.canonicalUrl else "")
      ++ "\nfeedlyUrl: https://feedly.com/i/entry/" ++ e.entry.id
      ++ "\ndate: " ++ dateToJournal (f e.created)
      ++ "\npubDate: " ++ dateToJournal (f (e.entry.published.getD e.entry.crawled))
      ++ "\nauthor: " ++ sanitizeFrontmatter e.entry.author
      ++ "\n", "\n---\n", ?_⟩
    apply String.ext
    simp [getInitialContent, ho, hne, String.data_append, data_nl_author,
      data_nl_publisher, List.append_assoc]

/-- Claim C10 witness: the colon-free sanitization and both frontmatter
splits at a concrete entry. -/
theorem claim_C10_witness :
    (':' ∉ (sanitizeFrontmatter "a:b").data)
    ∧ (∃ pre post : String,
        getInitialContent (fun _ => ⟨2023, 10, 23⟩) sampleCommentEntry =
          pre ++ "author: " ++ sanitizeFrontmatter "Ada" ++ post)
    ∧ (∃ pre post : String,
        getInitialContent (fun _ => ⟨2023, 10, 23⟩) sampleCommentEntry =
          pre ++ "publisher: " ++ sanitizeFrontmatter "Pub" ++ post) :=
  ⟨claim_C10.1 "a:b",
   claim_C10.2.1 (fun _ => ⟨2023, 10, 23⟩) sampleCommentEntry,
   claim_C10.2.2.1 (fun _ => ⟨2023, 10, 23⟩) sampleCommentEntry ⟨"Pub"⟩ rfl (by decide)⟩

/-! ## Sync loop invariants -/

/-- The loop never modifies `continuationTime`. -/
theorem syncLoop_continuationTime (s : FeedlySettings) (c : Nat) (script : List ApiOutcome) :
    (syncLoop s c script).settings.continuationTime = s.continuationTime := by
  induction script generalizing s c with
  | nil => rfl
  | cons o rest ih =>
    cases h : getAnnotations o with
    | thrown m => simp [syncLoop, h]
    | noRes => simp [syncLoop, h]
    | page es cont =>
      by_cases hl : es.length < 100
      · simp [syncLoop, h, hl]
      · simp [syncLoop, h, hl, ih]

/-- Either the loop reached a short page, in which case the final settings
carry `lastSync = continuationTime` and a cleared token, or it did not, in
which case `lastSync` is untouched. -/
theorem syncLoop_lastSync_cases (s : FeedlySettings) (c : Nat) (script : List ApiOutcome) :
    ((syncLoop s c script).ending = LoopExit.shortPage ∧
      (syncLoop s c script).settings.lastSync = s.continuationTime ∧
      (syncLoop s c script).settings.continuationToken = none)
    ∨ ((syncLoop s c script).ending ≠ LoopExit.shortPage ∧
      (syncLoop s c script).settings.lastSync = s.lastSync) := by
  induction script generalizing s c with
  | nil => right; exact ⟨by simp [syncLoop], rfl⟩
  | cons o rest ih =>
    cases h : getAnnotations o with
    | thrown m => right; simp [syncLoop, h]
    | noRes => right; simp [syncLoop, h]
    | page es cont =>
      by_cases hl : es.length < 100
      · left; simp [syncLoop, h, hl]
      · have := ih (s := { s with continuationToken := cont }) (c := c + es.length)
        simp only [syncLoop, h, hl] at this ⊢
        simpa using this

/-- Every settings record persisted during the loop keeps
`continuationTime` and either keeps `lastSync` or is the completion record
(`lastSync = continuationTime`, token cleared). -/
theorem syncLoop_saves (s : FeedlySettings) (c : Nat) (script : List ApiOutcome)
    (s2 : FeedlySettings)
    (hmem : Effect.savedSettings s2 ∈ (syncLoop s c script).trace) :
    s2.continuationTime = s.continuationTime ∧
    (s2.lastSync = s.lastSync ∨
      (s2.lastSync = s.continuationTime ∧ s2.continuationToken = none)) := by
  induction script generalizing s c with
  | nil => simp [syncLoop] at hmem
  | cons o rest ih =>
    cases h : getAnnotations o with
    | thrown m => simp [syncLoop, h] at hmem
    | noRes => simp [syncLoop, h] at hmem
    | page es cont =>
      by_cases hl : es.length < 100
      · simp [syncLoop, h, hl] at hmem
        subst hmem
        exact ⟨rfl, Or.inr ⟨rfl, rfl⟩⟩
      · simp [syncLoop, h, hl, List.mem_cons] at hmem
        rcases hmem with h2 | h3
        · subst h2
          exact ⟨rfl, Or.inl rfl⟩
        · exact ih (s := { s with continuationToken := cont }) (c := c + es.length) h3

/-! ## Claims about the sync checkpoint -/

/-- Claim C1: in a sync run, `continuationTime` is never modified by the
loop, `lastSync` is assigned exactly the stored `continuationTime` when
and only when the loop completes on a page of fewer than 100 entries (the
token being cleared there), and every settings record persisted anywhere
in a run either keeps the initial `lastSync` or is that completion
record. -/
theorem claim_C1 :
    (∀ (s : FeedlySettings) (c : Nat) (script : List ApiOutcome),
      (syncLoop s c script).settings.continuationTime = s.continuationTime
      ∧ ((syncLoop s c script).ending = LoopExit.shortPage →
          (syncLoop s c script).settings.lastSync = s.continuationTime ∧
          (syncLoop s c script).settings.continuationToken = none)
      ∧ ((syncLoop s c script).ending ≠ LoopExit.shortPage →
          (syncLoop s c script).settings.lastSync = s.lastSync)
      ∧ (∀ s2, Effect.savedSettings s2 ∈ (syncLoop s c script).trace →
          s2.continuationTime = s.continuationTime ∧
          (s2.lastSync = s.lastSync ∨
            (s2.lastSync = s.continuationTime ∧ s2.continuationToken = none))))
    ∧ (∀ (s0 : FeedlySettings) (now : Nat) (script : List ApiOutcome) (s2 : FeedlySettings),
        Effect.savedSettings s2 ∈ (syncCommand s0 now script).2 →
          s2.lastSync = s0.lastSync ∨
            (s2.lastSync = (syncStart s0 now).continuationTime ∧
              s2.continuationToken = none)) := by
  constructor
  · intro s c script
    refine ⟨syncLoop_continuationTime s c script, ?_, ?_,
      fun s2 hm => syncLoop_saves s c script s2 hm⟩
    · intro he
      rcases syncLoop_lastSync_cases s c script with ⟨_, h1, h2⟩ | ⟨hne, _⟩
      · exact ⟨h1, h2⟩
      · exact absurd he hne
    · intro hne
      rcases syncLoop_lastSync_cases s c script with ⟨he, _, _⟩ | ⟨_, h1⟩
      · exact absurd he hne
      · exact h1
  · intro s0 now script s2 hmem
    by_cases hu : jsFalsyStr s0.userId
    · simp [syncCommand, hu] at hmem
    · by_cases ha : jsFalsyStr s0.accessToken
      · simp [syncCommand, hu, ha] at hmem
      · by_cases ht : jsFalsyStr s0.continuationToken
        · simp [syncCommand, hu, ha, ht, List.mem_cons, List.mem_append] at hmem
          rcases hmem with h1 | h2
          · subst h1
            left
            simp [syncStart, ht]
          · have := syncLoop_saves (syncStart s0 now) 0 script s2 (by
              simpa [syncStart, ht] using h2)
            rcases this.2 with hl | hr
            · left
              simpa [syncStart, ht] using hl
            · right
              refine ⟨?_, hr.2⟩
              simpa [syncStart, ht] using hr.1
        · simp [syncCommand, hu, ha, ht, List.mem_cons, List.mem_append] at hmem
          have := syncLoop_saves (syncStart s0 now) 0 script s2 (by
            simpa [syncStart, ht] using hmem)
          rcases this.2 with hl | hr
          · left
            simpa [syncStart, ht] using hl
          · right
            refine ⟨?_, hr.2⟩
            simpa [syncStart, ht] using hr.1

/-- Claim C1 witness: a completing run (a single page of zero entries)
advances `lastSync` to the stored `continuationTime` and clears the token;
a run stopped by a rate-limited fetch keeps `lastSync`; the completion
save appears in the trace. -/
theorem claim_C1_witness :
    (syncLoop sampleSettings 0 [ApiOutcome.success false [] none]).settings.lastSync
        = sampleSettings.continuationTime
    ∧ (syncLoop sampleSettings 0 [ApiOutcome.success false [] none]).settings.continuationToken
        = none
    ∧ (syncLoop sampleSettings 0 [ApiOutcome.failure "got status 429"]).settings.lastSync
        = sampleSettings.lastSync
    ∧ (syncLoop sampleSettings 0 [ApiOutcome.success false [] none]).settings.continuationTime
        = sampleSettings.continuationTime
    ∧ (sampleCompletion.lastSync = sampleSettings.lastSync ∨
        (sampleCompletion.lastSync = sampleSettings.continuationTime ∧
          sampleCompletion.continuationToken = none)) :=
  ⟨((claim_C1.1 sampleSettings 0 [ApiOutcome.success false [] none]).2.1 (by decide)).1,
   ((claim_C1.1 sampleSettings 0 [ApiOutcome.success false [] none]).2.1 (by decide)).2,
   (claim_C1.1 sampleSettings 0 [ApiOutcome.failure "got status 429"]).2.2.1 (by decide),
   (claim_C1.1 sampleSettings 0 [ApiOutcome.success false [] none]).1,
   ((claim_C1.1 sampleSettings 0 [ApiOutcome.success false [] none]).2.2.2
      sampleCompletion (by decide)).2⟩

/-- Claim C9: with credentials present, a sync starting without a (truthy)
stored continuation token persists the settings with
`continuationTime := now` as its very first effect, before any network
call, and ends with that `continuationTime`; a sync starting with a stored
token leaves `continuationTime` unchanged everywhere (final state and
every persisted record). -/
theorem claim_C9 (s0 : FeedlySettings) (now : Nat) (script : List ApiOutcome)
    (hu : jsFalsyStr s0.userId = false) (ha : jsFalsyStr s0.accessToken = false) :
    (jsFalsyStr s0.continuationToken = true →
      (syncCommand s0 now script).2.head? =
        some (Effect.savedSettings { s0 with continuationTime := some now })
      ∧ (syncCommand s0 now script).1.continuationTime = some now)
    ∧ (jsFalsyStr s0.continuationToken = false →
      (syncCommand s0 now script).1.continuationTime = s0.continuationTime
      ∧ ∀ s2, Effect.savedSettings s2 ∈ (syncCommand s0 now script).2 →
          s2.continuationTime = s0.continuationTime) := by
  constructor
  · intro ht
    constructor
    · simp [syncCommand, hu, ha, ht, syncStart]
    · simp [syncCommand, hu, ha, ht, syncStart, syncLoop_continuationTime]
  · intro ht
    constructor
    · simp [syncCommand, hu, ha, ht, syncStart, syncLoop_continuationTime]
    · intro s2 hmem
      simp [syncCommand, hu, ha, ht, List.mem_cons, List.mem_append] at hmem
      have := syncLoop_saves (syncStart s0 now) 0 script s2 (by
        simpa [syncStart, ht] using hmem)
      simpa [syncStart, ht] using this.1

/-- Claim C9 witness: both starting conditions at concrete settings. -/
theorem claim_C9_witness :
    ((syncCommand sampleSettings 99 [ApiOutcome.success false [] none]).2.head? =
      some (Effect.savedSettings { sampleSettings with continuationTime := some 99 })
    ∧ (syncCommand sampleSettings 99 [ApiOutcome.success false [] none]).1.continuationTime
        = some 99)
    ∧ ((syncCommand { sampleSettings with continuationToken := some "tk" } 99
          [ApiOutcome.success false [] none]).1.continuationTime =
        ({ sampleSettings with continuationToken := some "tk" } : FeedlySettings).continuationTime) :=
  ⟨(claim_C9 sampleSettings 99 [ApiOutcome.success false [] none]
      (by decide) (by decide)).1 (by decide),
   ((claim_C9 { sampleSettings with continuationToken := some "tk" } 99
      [ApiOutcome.success false [] none] (by decide) (by decide)).2 (by decide)).1⟩

/-- Claim C4 counterexample: a fetch failing with a plain server error
(neither 401 nor 429) makes the loop stop, but the whole loop trace is the
single network call — no notice carrying the error message (or any notice
at all) is produced, because the catch block of `getAnnotations` swallows
such errors and resolves to `undefined`. -/
theorem claim_C4_counterexample :
    syncLoop sampleSettings 0 [ApiOutcome.failure "Request failed, status 500"] =
      ⟨sampleSettings, 0, [Effect.networkCall], LoopExit.gotNone, []⟩ := by
  decide

/-- Claim C4 amended: on a fetch error that is neither a 401 nor a 429 —
an HTTP failure with another status, or a 200 payload carrying an embedded
error code — the loop stops immediately with the settings unchanged, but
no notice is shown for it: the only loop effect is the network call
itself. -/
theorem claim_C4 (s : FeedlySettings) (c : Nat) (m : String)
    (es : List FeedlyAnnotatedEntry) (cont : Option String) (rest rest2 : List ApiOutcome)
    (h1 : jsIncludes m "status 401" = false) (h2 : jsIncludes m "status 429" = false) :
    syncLoop s c (ApiOutcome.failure m :: rest) =
      ⟨s, c, [Effect.networkCall], LoopExit.gotNone, rest⟩
    ∧ syncLoop s c (ApiOutcome.success true es cont :: rest2) =
      ⟨s, c, [Effect.networkCall], LoopExit.gotNone, rest2⟩ := by
  have o1 : jsIncludes "[object Object]" "status 401" = false := by decide
  have o2 : jsIncludes "[object Object]" "status 429" = false := by decide
  constructor
  · simp [syncLoop, getAnnotations, classifyCatch, h1, h2]
  · simp [syncLoop, getAnnotations, classifyCatch, o1, o2]

/-- Claim C4 witness: the amended statement at a teapot-status failure and
at an embedded-error payload. -/
theorem claim_C4_witness :
    syncLoop sampleSettings 3 [ApiOutcome.failure "boom status 418", ApiOutcome.failure "x"] =
      ⟨sampleSettings, 3, [Effect.networkCall], LoopExit.gotNone, [ApiOutcome.failure "x"]⟩
    ∧ syncLoop sampleSettings 3 [ApiOutcome.success true [] none] =
      ⟨sampleSettings, 3, [Effect.networkCall], LoopExit.gotNone, []⟩ :=
  claim_C4 sampleSettings 3 "boom status 418" [] none [ApiOutcome.failure "x"] []
    (by decide) (by decide)

/-- Appending to the front of a nonempty list does not change its last
element, whatever the defaults. -/
theorem getLast?_getD_cons {α : Type} (a : α) (l : List α) (d1 d2 : α) (hne : l ≠ []) :
    (a :: l).getLast?.getD d1 = l.getLast?.getD d2 := by
  cases l with
  | nil => exact absurd rfl hne
  | cons q qs =>
    obtain ⟨y, hy⟩ := Option.isSome_iff_exists.mp
      (List.getLast?_isSome.mpr (List.cons_ne_nil q qs))
    rw [List.getLast?_cons_cons, hy]
    rfl

/-- Claim C2: a run of full pages (each of exactly 100 entries) followed
by a fetch failing with status 401 or 429 stops the loop right there: the
remaining script is untouched, `lastSync` and `continuationTime` keep
their initial values, the stored continuation token is the one persisted
after the last full page (or the initial one if the failure hit page 1),
the matching notice is shown, and the final in-memory settings coincide
with the last persisted record. -/
theorem claim_C2 (s : FeedlySettings) (c : Nat)
    (pages : List (List FeedlyAnnotatedEntry × Option String)) (m : String)
    (rest : List ApiOutcome)
    (hfull : ∀ p ∈ pages, (Prod.fst p).length = 100)
    (herr : jsIncludes m "status 401" = true ∨ jsIncludes m "status 429" = true) :
    (syncLoop s c (errScript pages m rest)).ending = LoopExit.errorCaught (thrownMsgFor m)
    ∧ (syncLoop s c (errScript pages m rest)).remaining = rest
    ∧ (syncLoop s c (errScript pages m rest)).settings.lastSync = s.lastSync
    ∧ (syncLoop s c (errScript pages m rest)).settings.continuationTime = s.continuationTime
    ∧ (syncLoop s c (errScript pages m rest)).settings.continuationToken =
        ((pages.getLast?).map Prod.snd).getD s.continuationToken
    ∧ Effect.notice (errNoticeFor m) ∈ (syncLoop s c (errScript pages m rest)).trace
    ∧ (savesOf (syncLoop s c (errScript pages m rest)).trace).getLast?.getD s =
        (syncLoop s c (errScript pages m rest)).settings := by
  revert hfull
  induction pages generalizing s c with
  | nil =>
    intro hfull
    by_cases h401 : jsIncludes m "status 401"
    · have hcl : getAnnotations (ApiOutcome.failure m) =
          AnnResult.thrown "Access token expired, request a new one" := by
        simp [getAnnotations, classifyCatch, h401]
      have hni : jsIncludes "Access token expired, request a new one" "API rate limit"
          = false := by decide
      simp [errScript, syncLoop, hcl, hni, thrownMsgFor, errNoticeFor, h401, savesOf]
    · have h429 : jsIncludes m "status 429" = true := by
        rcases herr with h | h
        · exact absurd h (by simpa using h401)
        · exact h
      have hcl : getAnnotations (ApiOutcome.failure m) =
          AnnResult.thrown "API rate limit reached" := by
        simp [getAnnotations, classifyCatch, h401, h429]
      have hni : jsIncludes "API rate limit reached" "API rate limit" = true := by decide
      simp [errScript, syncLoop, hcl, hni, thrownMsgFor, errNoticeFor, h401, savesOf]
  | cons p ps ih =>
    intro hfull
    have hp : p.1.length = 100 := hfull p (List.mem_cons_self p ps)
    have hl : ¬ p.1.length < 100 := by omega
    have ihh := ih { s with continuationToken := p.2 } (c + p.1.length)
      (fun q hq => hfull q (List.mem_cons_of_mem p hq))
    have hscript : errScript (p :: ps) m rest =
        ApiOutcome.success false p.1 p.2 :: errScript ps m rest := by
      simp [errScript]
    have hstep : syncLoop s c (errScript (p :: ps) m rest) =
        ⟨(syncLoop { s with continuationToken := p.2 } (c + p.1.length)
            (errScript ps m rest)).settings,
          (syncLoop { s with continuationToken := p.2 } (c + p.1.length)
            (errScript ps m rest)).counter,
          Effect.networkCall :: Effect.savedSettings { s with continuationToken := p.2 } ::
            (syncLoop { s with continuationToken := p.2 } (c + p.1.length)
              (errScript ps m rest)).trace,
          (syncLoop { s with continuationToken := p.2 } (c + p.1.length)
            (errScript ps m rest)).ending,
          (syncLoop { s with continuationToken := p.2 } (c + p.1.length)
            (errScript ps m rest)).remaining⟩ := by
      rw [hscript]
      simp [syncLoop, getAnnotations, hl]
    rw [hstep]
    refine ⟨ihh.1, ihh.2.1, ihh.2.2.1, ihh.2.2.2.1, ?_, ?_, ?_⟩
    · cases hps : ps with
      | nil =>
        have := ihh.2.2.2.2.1
        rw [hps] at this
        simpa using this
      | cons q qs =>
        obtain ⟨y, hy⟩ := Option.isSome_iff_exists.mp
          (List.getLast?_isSome.mpr (List.cons_ne_nil q qs))
        have := ihh.2.2.2.2.1
        rw [hps] at this
        rw [hy] at this
        rw [List.getLast?_cons_cons, hy]
        simpa using this
    · exact List.mem_cons_of_mem _ (List.mem_cons_of_mem _ ihh.2.2.2.2.2.1)
    · have hs := ihh.2.2.2.2.2.2
      have hsav : savesOf (Effect.networkCall ::
          Effect.savedSettings { s with continuationToken := p.2 } ::
            (syncLoop { s with continuationToken := p.2 } (c + p.1.length)
              (errScript ps m rest)).trace) =
          { s with continuationToken := p.2 } ::
            savesOf (syncLoop { s with continuationToken := p.2 } (c + p.1.length)
              (errScript ps m rest)).trace := rfl
      rw [hsav]
      cases hsv : savesOf (syncLoop { s with continuationToken := p.2 } (c + p.1.length)
          (errScript ps m rest)).trace with
      | nil =>
        rw [hsv] at hs
        simpa using hs
      | cons y ys =>
        rw [hsv] at hs
        rw [getLast?_getD_cons _ (y :: ys) s { s with continuationToken := p.2 }
          (List.cons_ne_nil y ys)]
        exact hs

/-- Claim C2 witness: one full page persisting the token, then a 429
failure: the loop stops with the unconsumed script intact, `lastSync`
unchanged, the page-1 token still stored, and the rate-limit notice
shown. -/
theorem claim_C2_witness :
    (syncLoop sampleSettings 0 (errScript [(fullPageEntries, some "tok1")] "err status 429"
        [ApiOutcome.failure "later"])).settings.lastSync = sampleSettings.lastSync
    ∧ (syncLoop sampleSettings 0 (errScript [(fullPageEntries, some "tok1")] "err status 429"
        [ApiOutcome.failure "later"])).settings.continuationToken = some "tok1"
    ∧ (syncLoop sampleSettings 0 (errScript [(fullPageEntries, some "tok1")] "err status 429"
        [ApiOutcome.failure "later"])).remaining = [ApiOutcome.failure "later"]
    ∧ Effect.notice "The Feedly API rate limit has been reached, continue later"
        ∈ (syncLoop sampleSettings 0 (errScript [(fullPageEntries, some "tok1")]
            "err status 429" [ApiOutcome.failure "later"])).trace := by
  have h := claim_C2 sampleSettings 0 [(fullPageEntries, some "tok1")] "err status 429"
    [ApiOutcome.failure "later"]
    (by intro p hp; simp at hp; subst hp; simp [fullPageEntries])
    (Or.inr (by decide))
  have hn : errNoticeFor "err status 429" =
      "The Feedly API rate limit has been reached, continue later" := by decide
  refine ⟨h.2.2.1, h.2.2.2.2.1.trans (by decide), h.2.1, ?_⟩
  rw [← hn]
  exact h.2.2.2.2.2.1

/-! ## Claims about the API gateway and the export pipeline -/

/-- Claim C5 counterexample: the `apiCall` of `src/main.ts` sends a
present body as the raw value, not as its JSON serialization, so the
serialize-when-present part of the claim fails for that file. -/
theorem claim_C5_counterexample :
    (apiCallMain "tok" "entries/.mget" "POST" (some (JsData.items ["idA"]))).body
      = RequestBody.rawData (JsData.items ["idA"])
    ∧ (apiCallMain "tok" "entries/.mget" "POST" (some (JsData.items ["idA"]))).body
      ≠ RequestBody.jsonText (jsonStringify (JsData.items ["idA"])) := by
  constructor
  · rfl
  · decide

/-- Claim C5 amended: both `apiCall` functions always send the bearer
Authorization header and the JSON Accept header; a present body is
JSON-serialized in the main plugin file but passed raw in `src/main.ts`;
an absent body stays absent in both. -/
theorem claim_C5 (tok path method : String) (d : JsData) :
    (apiCall tok path method (some d)).headers =
      [("Authorization", "Bearer " ++ tok), ("Accept", "application/json")]
    ∧ (apiCallMain tok path method (some d)).headers =
      [("Authorization", "Bearer " ++ tok), ("Accept", "application/json")]
    ∧ (apiCall tok path method none).headers =
      [("Authorization", "Bearer " ++ tok), ("Accept", "application/json")]
    ∧ (apiCallMain tok path method none).headers =
      [("Authorization", "Bearer " ++ tok), ("Accept", "application/json")]
    ∧ (apiCall tok path method (some d)).body = RequestBody.jsonText (jsonStringify d)
    ∧ (apiCallMain tok path method (some d)).body = RequestBody.rawData d
    ∧ (apiCall tok path method none).body = RequestBody.absent
    ∧ (apiCallMain tok path method none).body = RequestBody.absent :=
  ⟨rfl, rfl, rfl, rfl, rfl, rfl, rfl, rfl⟩

/-- Claim C6 counterexample: an article whose rendered content is the
empty string resolves to the empty string, not to its nonempty summary as
the claim says; and an article with empty resolved content is kept by the
export filter, not excluded. -/
theorem claim_C6_counterexample :
    getContent emptyRenderedArticle = some ""
    ∧ specResolveContent emptyRenderedArticle = some "the summary"
    ∧ specResolveContent allEmptyArticle = none
    ∧ articlesToExport [allEmptyArticle] = [allEmptyArticle] := by
  refine ⟨rfl, by decide, by decide, by decide⟩

/-- Claim C6 amended: the resolved body content is the first present
(non-undefined) of rendered content, summary content, full content — even
when that value is the empty string — and an article is excluded from the
export exactly when all three are absent. -/
theorem claim_C6 (arts : List FeedlyArticle) (a : FeedlyArticle) :
    (a ∈ articlesToExport arts ↔ a ∈ arts ∧ getContent a ≠ none)
    ∧ (getContent a = none ↔ a.content = none ∧ a.summary = none ∧ a.fullContent = none)
    ∧ (∀ b, a.content = some b → getContent a = some b.content)
    ∧ (a.content = none → ∀ b, a.summary = some b → getContent a = some b.content)
    ∧ (a.content = none → a.summary = none → getContent a = a.fullContent) := by
  refine ⟨?_, ?_, ?_, ?_, ?_⟩
  · simp [articlesToExport, List.mem_filter, Option.isSome_iff_ne_none]
  · cases hc : a.content <;> cases hs : a.summary <;> simp [getContent, hc, hs]
  · intro b hb
    simp [getContent, hb]
  · intro hc b hb
    simp [getContent, hc, hb]
  · intro hc hs
    simp [getContent, hc, hs]

/-- Claim C6 witness: the amended resolution at concrete articles. -/
theorem claim_C6_witness :
    getContent emptyRenderedArticle = some (ArticleBody.content ⟨""⟩)
    ∧ getContent summaryOnlyArticle = some (ArticleBody.content ⟨"only summary"⟩)
    ∧ (summaryOnlyArticle ∈ articlesToExport [summaryOnlyArticle] ↔
        summaryOnlyArticle ∈ [summaryOnlyArticle] ∧ getContent summaryOnlyArticle ≠ none) :=
  ⟨(claim_C6 [] emptyRenderedArticle).2.2.1 ⟨""⟩ rfl,
   (claim_C6 [] summaryOnlyArticle).2.2.2.1 rfl ⟨"only summary"⟩ rfl,
   (claim_C6 [summaryOnlyArticle] summaryOnlyArticle).1⟩

/-- When every file in the list sits in a created folder (or at the root),
the add loop succeeds and writes each file at `folder/name` with no
explicit compression option. -/
theorem addAllZipEntries_eq (l : List EpubFile)
    (h : ∀ f ∈ l, f.folder ∈ epubFolders ∨ f.folder = "") :
    addAllZipEntries l =
      some (l.map (fun f => ⟨f.folder ++ "/" ++ f.name, ZipComp.unspecified⟩)) := by
  induction l with
  | nil => rfl
  | cons f fs ih =>
    have hf := h f (List.mem_cons_self f fs)
    have he : addZipEntry f = some ⟨f.folder ++ "/" ++ f.name, ZipComp.unspecified⟩ := by
      rcases hf with hm | hem
      · by_cases hne : f.folder = ""
        · simp [addZipEntry, hne]
        · simp [addZipEntry, hne]
          exact hm
      · simp [addZipEntry, hem]
    simp [addAllZipEntries, he, ih (fun g hg => h g (List.mem_cons_of_mem f hg))]

/-- Claim C7: when the generated file set holds a mimetype file and every
other file was generated under one of the created folders, the assembled
container starts with the mimetype entry stored with explicit `STORE`
(no) compression, followed by every other file, in order, at the path
`folder/name` of its declared folder. -/
theorem claim_C7 (files : List EpubFile)
    (hmime : ∃ f ∈ files, f.name = "mimetype")
    (hfold : ∀ f ∈ files, f.name ≠ "mimetype" → f.folder ∈ epubFolders) :
    buildZipEntries files =
      some (⟨"mimetype", ZipComp.store⟩ ::
        (files.filter (fun f => f.name ≠ "mimetype")).map
          (fun f => ⟨f.folder ++ "/" ++ f.name, ZipComp.unspecified⟩)) := by
  have hsome : (files.find? (fun f => f.name = "mimetype")).isSome = true := by
    rw [List.find?_isSome]
    obtain ⟨f, hf, hn⟩ := hmime
    exact ⟨f, hf, by simp [hn]⟩
  obtain ⟨f0, hf0⟩ := Option.isSome_iff_exists.mp hsome
  have hname : f0.name = "mimetype" := by simpa using List.find?_some hf0
  have hall := addAllZipEntries_eq (files.filter (fun f => f.name ≠ "mimetype"))
    (fun g hg => Or.inl (hfold g (List.mem_filter.mp hg).1
      (by simpa using (List.mem_filter.mp hg).2)))
  simp only [buildZipEntries, hf0]
  rw [hall]
  simp [hname]

/-- Claim C7 witness: the assembly of a small concrete book. -/
theorem claim_C7_witness :
    buildZipEntries witnessEpubFiles =
      some (⟨"mimetype", ZipComp.store⟩ ::
        (witnessEpubFiles.filter (fun f => f.name ≠ "mimetype")).map
          (fun f => ⟨f.folder ++ "/" ++ f.name, ZipComp.unspecified⟩)) :=
  claim_C7 witnessEpubFiles (by decide) (by decide)
